import Mathlib

/-!
Verification of the task-orchestration core of the IPE dashboard repository
(`src/services/agent_service.py`, class `AgentService`).

The Python code is shallowly embedded: the orchestrator's mutable object state
(`active_tasks`, `task_history`, the two backing JSON files, the wall clock and
the count of completion-client calls) becomes an explicit `AgentState` record,
and every method becomes a function from state to state (fallible methods
return `Except`, mirroring Python exceptions).  Python `datetime` values are
modelled by a tick counter (`PyTime.dt`), ISO-formatted timestamp strings by
`PyTime.s`; `datetime.now()` reads and advances the tick so that later stamps
are never smaller.  The external OpenAI completion client appears in two
different ways, matching the source: the planner awaits `get_completion` and
receives text (that method traps every provider error and returns error
*text*, never raising), so the planner's raw response is a string parameter;
the step executors instead invoke the `async` `get_completion` *without*
`await` from synchronous methods, which returns a coroutine object
immediately — no request is issued and nothing can raise — so step execution
has no external-failure path at all.  The JSON files are modelled
structurally (`FileState.valid` holds the parsed array, `FileState.corrupt` an
unparsable blob); the `json` library's encode/decode of well-formed arrays is
taken as exact, while `datetime.fromisoformat` / `.isoformat` are modelled by
an injective `Nat ↔ String` codec with their Python error behaviour
(`ValueError` on a bad string, `AttributeError`/`TypeError` on a value of the
wrong runtime type).
-/

/-- Python runtime errors that the embedded code can raise. -/
inductive PyErr
  | typeError
  | attributeError
  | valueError
  | ioError
deriving DecidableEq, Repr

/-- `str(e)` for an exception, as interpolated into error dicts by the source. -/
def PyErr.msg : PyErr → String
  | .typeError => "TypeError"
  | .attributeError => "AttributeError"
  | .valueError => "ValueError"
  | .ioError => "IOError"

/-- A Python value sitting in a timestamp field: either a `datetime` object
(modelled by its creation tick) or an ISO-format string. -/
inductive PyTime
  | dt (tick : Nat)
  | s (text : String)
deriving DecidableEq, Repr

/-! ### Decimal codec

`datetime.isoformat` / `datetime.fromisoformat` and the `f"task_{n}"` id
scheme need an injective `Nat → String` rendering with a computable left
inverse.  We build one from base-10 digits (fuel-based so that it reduces by
`rfl`/`decide`). -/

/-- Little-endian base-10 digits of `n`, with explicit fuel (`fuel ≥ n`). -/
def natDigitsAux : Nat → Nat → List Nat
  | 0, _ => []
  | _ + 1, 0 => []
  | fuel + 1, n + 1 => ((n + 1) % 10) :: natDigitsAux fuel ((n + 1) / 10)

/-- Little-endian base-10 digits of `n` (empty for `0`). -/
def natDigits (n : Nat) : List Nat := natDigitsAux n n

/-- Decode little-endian base-10 digits. -/
def digitsToNat : List Nat → Nat
  | [] => 0
  | d :: ds => d + 10 * digitsToNat ds

/-- Render one digit (`d < 10`) as a character. -/
def digitToChar (d : Nat) : Char :=
  match d with
  | 0 => '0' | 1 => '1' | 2 => '2' | 3 => '3' | 4 => '4'
  | 5 => '5' | 6 => '6' | 7 => '7' | 8 => '8' | _ => '9'

/-- Parse one character back to a digit. -/
def charToDigit (c : Char) : Option Nat :=
  if c = '0' then some 0 else if c = '1' then some 1 else if c = '2' then some 2
  else if c = '3' then some 3 else if c = '4' then some 4 else if c = '5' then some 5
  else if c = '6' then some 6 else if c = '7' then some 7 else if c = '8' then some 8
  else if c = '9' then some 9 else none

/-- Decimal rendering of a natural number (big-endian), the model of both
`str(n)` in the id scheme and `datetime.isoformat`. -/
def natToString (n : Nat) : String :=
  String.mk (((natDigits n).map digitToChar).reverse)

/-- `Option`-valued effectful map over a list (all-or-nothing). -/
def mapOpt {α β : Type} (f : α → Option β) : List α → Option (List β)
  | [] => some []
  | a :: as => do
    let b ← f a
    let bs ← mapOpt f as
    pure (b :: bs)

/-- Partial inverse of `natToString`, the model of `datetime.fromisoformat`'s
parsing of a well-formed timestamp string. -/
def stringToNat (s : String) : Option Nat :=
  (mapOpt charToDigit s.data.reverse).map digitsToNat

theorem charToDigit_digitToChar {d : Nat} (hd : d < 10) :
    charToDigit (digitToChar d) = some d := by
  interval_cases d <;> decide

theorem natDigitsAux_lt (fuel n : Nat) : ∀ d ∈ natDigitsAux fuel n, d < 10 := by
  induction fuel generalizing n with
  | zero => intro d hd; simp [natDigitsAux] at hd
  | succ fuel ih =>
    intro d hd
    cases n with
    | zero => simp [natDigitsAux] at hd
    | succ m =>
      simp only [natDigitsAux, List.mem_cons] at hd
      rcases hd with h | h
      · subst h; exact Nat.mod_lt _ (by omega)
      · exact ih _ d h

theorem digitsToNat_natDigitsAux (fuel n : Nat) (h : n ≤ fuel) :
    digitsToNat (natDigitsAux fuel n) = n := by
  induction fuel generalizing n with
  | zero => interval_cases n; rfl
  | succ fuel ih =>
    cases n with
    | zero => rfl
    | succ m =>
      have hrec : (m + 1) / 10 ≤ fuel := by
        have : (m + 1) / 10 < m + 1 := Nat.div_lt_self (by omega) (by omega)
        omega
      simp only [natDigitsAux, digitsToNat, ih _ hrec]
      omega

theorem mapOpt_charToDigit_map (ds : List Nat) (h : ∀ d ∈ ds, d < 10) :
    mapOpt charToDigit (ds.map digitToChar) = some ds := by
  induction ds with
  | nil => rfl
  | cons d ds ih =>
    have hd : d < 10 := h d (List.mem_cons_self _ _)
    have hds : ∀ x ∈ ds, x < 10 := fun x hx => h x (List.mem_cons_of_mem _ hx)
    simp [mapOpt, charToDigit_digitToChar hd, ih hds]

/-- The decimal codec is a section: parsing a rendered number recovers it. -/
theorem stringToNat_natToString (n : Nat) : stringToNat (natToString n) = some n := by
  unfold stringToNat natToString natDigits
  simp only [List.reverse_reverse]
  rw [mapOpt_charToDigit_map _ (natDigitsAux_lt n n)]
  simp [digitsToNat_natDigitsAux n n (Nat.le_refl n)]

theorem natToString_injective : Function.Injective natToString := by
  intro a b h
  have ha := stringToNat_natToString a
  rw [h, stringToNat_natToString b] at ha
  exact (Option.some.injEq _ _).mp ha.symm

/-- `x.isoformat()`: a datetime renders to its ISO string; calling the method
on a value that is already a string raises `AttributeError`. -/
def PyTime.isoformat : PyTime → Except PyErr String
  | .dt n => .ok (natToString n)
  | .s _ => .error .attributeError

/-- `datetime.fromisoformat(x)`: parses a well-formed string, raises
`ValueError` on a malformed string and `TypeError` on a non-string. -/
def pyFromIsoformat : PyTime → Except PyErr PyTime
  | .s text =>
    match stringToNat text with
    | some n => .ok (.dt n)
    | none => .error .valueError
  | .dt _ => .error .typeError

namespace AgentSvc

/-! ### Data model

Tasks and steps are Python dicts in the source; we model them as records with
the keys the orchestrator reads and writes.  `completed_at` is optional (the
key is only added by `archive_task`); every other timestamp key is always
present on records built by this code. -/

/-- The result dict produced by a step executor:
`{"status": ..., "result": ...}` on success, `{"status": ..., "error": ...}`
on failure (`AgentService._execute_analysis_step` / `_execute_action_step` /
`execute_step`). -/
structure StepResult where
  status : String
  result : Option String := none
  error : Option String := none
deriving DecidableEq, Repr

/-- A step dict as assembled by `_plan_task_steps` and mutated by
`execute_step`. -/
structure Step where
  id : String
  description : String
  type : String
  parameters : List (String × String) := []
  status : String
  result : Option StepResult := none
  created_at : PyTime
  updated_at : PyTime
deriving DecidableEq, Repr

/-- A task dict as assembled by `create_task`. -/
structure Task where
  task_id : String
  description : String
  context : List (String × String) := []
  status : String
  steps : List Step
  created_at : PyTime
  updated_at : PyTime
  completed_at : Option PyTime := none
deriving DecidableEq, Repr

/-- One on-disk JSON file: missing, unparsable, or a parsed array of task
objects (timestamps in whatever runtime form the writer left them). -/
inductive FileState
  | absent
  | corrupt (raw : String)
  | valid (tasks : List Task)
deriving DecidableEq, Repr

/-- The mutable state of one `AgentService` instance plus its environment:
the two in-memory collections, the two backing files (and the quarantine
backup of the active file), the wall clock (ticks handed out by
`datetime.now()`), whether file writes succeed, and how many times
`get_completion` has been invoked (each invocation from the step executors is
un-awaited and merely constructs a coroutine: no request is ever issued). -/
structure AgentState where
  active_tasks : List Task
  task_history : List Task
  activeFile : FileState
  activeBak : Option FileState
  historyFile : FileState
  clock : Nat
  diskOk : Bool
  modelCalls : Nat
deriving DecidableEq, Repr

/-- `Except`-valued effectful map over a list (stops at the first error, like
a Python `for` loop whose body can raise). -/
def mapExc {α β : Type} (f : α → Except PyErr β) : List α → Except PyErr (List β)
  | [] => .ok []
  | a :: as => do
    let b ← f a
    let bs ← mapExc f as
    pure (b :: bs)

/-! ### Task Store: load -/

/-- Timestamp deserialization applied to one task by `_load_task_history`
(lines 62–68): `created_at`, then `completed_at` if present, then
`updated_at`. -/
def parseHistoryTaskTimes (t : Task) : Except PyErr Task := do
  let c ← pyFromIsoformat t.created_at
  let comp ← match t.completed_at with
    | some v => do
      let v' ← pyFromIsoformat v
      pure (some v')
    | none => pure (none : Option PyTime)
  let u ← pyFromIsoformat t.updated_at
  pure { t with created_at := c, completed_at := comp, updated_at := u }

/-- Timestamp deserialization applied to one task by `_load_active_tasks`
(lines 122–126): only task-level `created_at` and `updated_at`; neither
`completed_at` nor any step timestamp is converted. -/
def parseActiveTaskTimes (t : Task) : Except PyErr Task := do
  let c ← pyFromIsoformat t.created_at
  let u ← pyFromIsoformat t.updated_at
  pure { t with created_at := c, updated_at := u }

/-- `AgentService._load_task_history` (lines 49–79).  The whole body is inside
one `try`: a `JSONDecodeError` (corrupt file), a `ValueError` from
`fromisoformat`, or a write failure when creating a missing file all land in
the generic handler, which just sets the in-memory history to `[]` — the file
itself is never quarantined or recreated on a parse failure.  The function
never raises. -/
def load_task_history (s : AgentState) : AgentState :=
  match s.historyFile with
  | .valid data =>
    match mapExc parseHistoryTaskTimes data with
    | .ok parsed => { s with task_history := parsed }
    | .error _ => { s with task_history := [] }
  | .corrupt _ => { s with task_history := [] }
  | .absent =>
    if s.diskOk then { s with task_history := [], historyFile := .valid [] }
    else { s with task_history := [] }

/-- `AgentService._load_active_tasks` (lines 108–147).  The file read and JSON
parse sit in an inner `try` whose `except json.JSONDecodeError` handler sets
the collection to `[]`, renames the corrupt file to `<file>.bak` and recreates
an empty file.  A `ValueError` from `fromisoformat` is not a `JSONDecodeError`
and falls through to the outer handler (collection set to `[]`, file left
as-is).  The function never raises. -/
def load_active_tasks (s : AgentState) : AgentState :=
  match s.activeFile with
  | .valid data =>
    match mapExc parseActiveTaskTimes data with
    | .ok parsed => { s with active_tasks := parsed }
    | .error _ => { s with active_tasks := [] }
  | .corrupt raw =>
    if s.diskOk then
      { s with active_tasks := [],
               activeBak := some (.corrupt raw),
               activeFile := .valid [] }
    else { s with active_tasks := [] }
  | .absent =>
    if s.diskOk then { s with active_tasks := [], activeFile := .valid [] }
    else { s with active_tasks := [] }

/-! ### Task Store: save -/

/-- Step serialization inside `_save_active_tasks` (lines 167–171).  The step
dicts are shared between the saved copy and the in-memory task (`task.copy()`
is shallow), so this mutation is visible in memory after a save. -/
def serializeStep (st : Step) : Except PyErr Step := do
  let c ← st.created_at.isoformat
  let u ← st.updated_at.isoformat
  pure { st with created_at := .s c, updated_at := .s u }

/-- One task as processed by the `_save_active_tasks` loop (lines 160–172):
returns the copy appended to `tasks_data` (top-level timestamps stringified)
and the in-memory residue of the shared-step mutation. -/
def serializeActiveTask (t : Task) : Except PyErr (Task × Task) := do
  let c ← t.created_at.isoformat
  let u ← t.updated_at.isoformat
  let steps' ← mapExc serializeStep t.steps
  pure ({ t with created_at := .s c, updated_at := .s u, steps := steps' },
        { t with steps := steps' })

/-- `json.dump` accepts the serialized active task only if every remaining
timestamp value is a string; `_save_active_tasks` never touches
`completed_at`, so a datetime there would make `json.dump` raise
`TypeError`. -/
def activeDumpOk (t : Task) : Bool :=
  match t.completed_at with
  | some (.dt _) => false
  | _ => true

/-- `AgentService._save_active_tasks` (lines 149–179).  Serialization errors,
write failures and `json.dump` type errors are logged and re-raised
(`raise` on line 179), so the caller sees them.  On the error path the
partial in-place step mutations Python performs before the exception are not
tracked (no claim observes them); on the success path they are (`Prod.snd`).
A failed write is modelled as leaving the file unchanged. -/
def save_active_tasks (s : AgentState) : Except (PyErr × AgentState) AgentState :=
  match mapExc serializeActiveTask s.active_tasks with
  | .error e => .error (e, s)
  | .ok pairs =>
    let smem := { s with active_tasks := pairs.map Prod.snd }
    if !s.diskOk then .error (.ioError, smem)
    else if !(pairs.map Prod.fst).all activeDumpOk then .error (.typeError, smem)
    else .ok { smem with activeFile := .valid (pairs.map Prod.fst) }

/-- One task as processed by the `_save_task_history` loop (lines 92–100):
only the top-level `created_at` / `completed_at` / `updated_at` of the copy
are stringified; step timestamps are not touched (and the originals are not
mutated, since only top-level keys are reassigned on the copy). -/
def serializeHistoryTask (t : Task) : Except PyErr Task := do
  let c ← t.created_at.isoformat
  let comp ← match t.completed_at with
    | some v => do
      let v' ← v.isoformat
      pure (some (PyTime.s v'))
    | none => pure (none : Option PyTime)
  let u ← t.updated_at.isoformat
  pure { t with created_at := .s c, completed_at := comp, updated_at := .s u }

/-- `json.dump` accepts the serialized history task only if its step
timestamps are strings (the history writer never stringifies them). -/
def historyDumpOk (t : Task) : Bool :=
  t.steps.all fun st =>
    (match st.created_at with | .s _ => true | .dt _ => false) &&
    (match st.updated_at with | .s _ => true | .dt _ => false)

/-- `AgentService._save_task_history` (lines 81–106).  Every failure —
serialization, open/write, `json.dump` type error — is caught by the final
`except`, logged and **swallowed**: the method always returns normally and a
failed write leaves the file unchanged. -/
def save_task_history (s : AgentState) : AgentState :=
  match mapExc serializeHistoryTask s.task_history with
  | .error _ => s
  | .ok ts =>
    if s.diskOk && ts.all historyDumpOk then { s with historyFile := .valid ts }
    else s

/-! ### Orchestrator: lookups and the status updaters -/

/-- Python `==` between a `str` and a `dict` is always `False`.  This is the
comparison performed element-wise by `task_id in self.active_tasks` when
`active_tasks` is a *list of dicts*. -/
def pyStrEqDict (_ : String) (_ : Task) : Bool := false

/-- `AgentService.get_task` (lines 268–280): first match in the active
collection, then in the history. -/
def get_task (s : AgentState) (task_id : String) : Option Task :=
  match s.active_tasks.find? (fun t => t.task_id == task_id) with
  | some t => some t
  | none => s.task_history.find? (fun t => t.task_id == task_id)

/-- `AgentService.update_task_status` (lines 318–322).  The guard
`task_id in self.active_tasks` compares the id string against each task
*dict* and can never succeed; were it to succeed, the body
`self.active_tasks[task_id]` would index a list with a string and raise
`TypeError`. -/
def update_task_status (s : AgentState) (task_id status : String) :
    Except PyErr AgentState :=
  if s.active_tasks.any (fun t => pyStrEqDict task_id t) then
    .error .typeError
  else
    .ok s

/-- `AgentService.update_step_status` (lines 324–331): same impossible guard
and same would-be `TypeError` as `update_task_status`. -/
def update_step_status (s : AgentState) (task_id step_id status : String) :
    Except PyErr AgentState :=
  if s.active_tasks.any (fun t => pyStrEqDict task_id t) then
    .error .typeError
  else
    .ok s

/-! ### Step Planner and task creation -/

/-- The response clean-up in `_plan_task_steps` (lines 202–207): trim, strip a
leading markdown fence opener, strip a trailing fence, trim again. -/
def postprocessResponse (response : String) : String :=
  let r := response.trim
  let r := if r.startsWith "```json" then r.drop 7 else r
  let r := if r.endsWith "```" then r.dropRight 3 else r
  r.trim

/-- The lifecycle loop of `_plan_task_steps` (lines 217–221): each parsed step
gets `id = step_<i>` (1-based), `status = pending` and two fresh
`datetime.now()` stamps.  Returns the rewritten steps and the advanced
clock. -/
def attachLifecycle : Nat → Nat → List Step → List Step × Nat
  | _, clock, [] => ([], clock)
  | i, clock, st :: rest =>
    let st' := { st with id := "step_" ++ natToString i,
                         status := "pending",
                         created_at := PyTime.dt clock,
                         updated_at := PyTime.dt (clock + 1) }
    let (rest', clock') := attachLifecycle (i + 1) (clock + 2) rest
    (st' :: rest', clock')

/-- `AgentService._plan_task_steps` (lines 181–227).  The completion client's
raw text is the `response` argument; the `json.loads` of the external `json`
library is the `jsonLoads` argument (`none` = `JSONDecodeError`).  A parse
failure is logged and degraded to an empty step list (lines 210–214); the
function never raises (outer handler returns `[]`). -/
def plan_task_steps (jsonLoads : String → Option (List Step)) (response : String)
    (s : AgentState) : List Step × AgentState :=
  let steps := (jsonLoads (postprocessResponse response)).getD []
  let res := attachLifecycle 1 s.clock steps
  (res.1, { s with clock := res.2 })

/-- `AgentService.create_task` (lines 229–262): id from the current
active+archived count, plan, assemble with `status = "pending"`, append to the
active collection, save.  A save failure propagates (line 262 re-raises) but
the append has already happened; the returned record is the live (shared)
object, whose steps the save just stringified. -/
def create_task (jsonLoads : String → Option (List Step)) (response : String)
    (description : String) (context : List (String × String)) (s : AgentState) :
    Except (PyErr × AgentState) (Task × AgentState) :=
  let task_id := "task_" ++ natToString (s.active_tasks.length + s.task_history.length + 1)
  let (steps, s1) := plan_task_steps jsonLoads response s
  let task : Task := {
    task_id := task_id, description := description, context := context,
    status := "pending", steps := steps,
    created_at := PyTime.dt s1.clock, updated_at := PyTime.dt (s1.clock + 1) }
  let s2 := { s1 with clock := s1.clock + 2,
                      active_tasks := s1.active_tasks ++ [task] }
  match save_active_tasks s2 with
  | .ok s3 => .ok (s3.active_tasks.getLastD task, s3)
  | .error es => .error es

/-! ### Step execution -/

/-- `_execute_analysis_step` (lines 361–385).  Line 373 calls the `async`
`OpenAIService.get_completion` from this synchronous method **without
`await`**: the call returns a coroutine object immediately, issues no
request, and cannot raise (and `get_completion` itself traps every provider
error into error text, `utils/openai_service.py` lines 49–51).  The
`except` branch is therefore unreachable and the result is unconditionally
`{"status": "success", "result": <coroutine object>}`; the coroutine object
is represented by an opaque marker, as nothing in this layer inspects it. -/
def execute_analysis_step : StepResult :=
  { status := "success", result := some "coroutine object get_completion" }

/-- `_execute_action_step` (lines 387–411): identical to
`_execute_analysis_step` up to the prompt text — the un-awaited call at line
399 likewise always yields the success dict. -/
def execute_action_step : StepResult :=
  { status := "success", result := some "coroutine object get_completion" }

/-- Replace (the steps of) the first task matching `task_id`, modelling an
in-place mutation of a step dict shared with that task. -/
def replaceStepsById (tasks : List Task) (task_id : String) (steps : List Step) :
    List Task :=
  match tasks with
  | [] => []
  | t :: rest =>
    if t.task_id == task_id then { t with steps := steps } :: rest
    else t :: replaceStepsById rest task_id steps

/-- Write the mutated step list back into whichever collection `get_task`
found the task in (active first, then history) — the step dicts handed to the
execution loop are aliases into that record. -/
def setTaskStepsById (s : AgentState) (task_id : String) (steps : List Step) :
    AgentState :=
  if s.active_tasks.any (fun t => t.task_id == task_id) then
    { s with active_tasks := replaceStepsById s.active_tasks task_id steps }
  else
    { s with task_history := replaceStepsById s.task_history task_id steps }

/-- `AgentService.execute_step` (lines 333–359) for one step dict.  Looks the
task up (not-found short-circuits without touching the step), dispatches on
`step["type"]` — `analysis` and `action` invoke the un-awaited completion
client (counted in `modelCalls`) and so always obtain the success dict;
any other type is an immediate error result — then mutates the step dict:
`result`, `status := result["status"]`, fresh `updated_at`.  Returns the
result dict, the mutated step, and the advanced state. -/
def execute_step (s : AgentState) (task_id : String) (st : Step) :
    StepResult × Step × AgentState :=
  match get_task s task_id with
  | none => ({ status := "error", error := some "Task not found" }, st, s)
  | some _ =>
    let (r, s1) :=
      if st.type == "analysis" then
        (execute_analysis_step, { s with modelCalls := s.modelCalls + 1 })
      else if st.type == "action" then
        (execute_action_step, { s with modelCalls := s.modelCalls + 1 })
      else
        ({ status := "error", error := some ("Unknown step type: " ++ st.type) }, s)
    let st' := { st with result := some r, status := r.status,
                         updated_at := PyTime.dt s1.clock }
    (r, st', { s1 with clock := s1.clock + 1 })

/-- The `for step in steps` loop of `execute_task` (lines 426–436).  `done`
holds the already-mutated prefix; after each step the shared step objects are
written back into the stored task.  A non-`success` result (reachable only
through a not-found lookup or an unknown step type, since model calls cannot
fail) triggers the two (no-op) status updates and an early return of that
result. -/
def executeStepsLoop (task_id : String) :
    List Step → List Step → AgentState →
    Except (PyErr × AgentState) (Option StepResult × AgentState)
  | _, [], s => .ok (none, s)
  | done, st :: todo, s =>
    let (r, st', s1) := execute_step s task_id st
    let s2 := setTaskStepsById s1 task_id (done ++ st' :: todo)
    if r.status == "success" then
      match update_step_status s2 task_id st.id "completed" with
      | .error e => .error (e, s2)
      | .ok s3 => executeStepsLoop task_id (done ++ [st']) todo s3
    else
      match update_step_status s2 task_id st.id "failed" with
      | .error e => .error (e, s2)
      | .ok s3 =>
        match update_task_status s3 task_id "failed" with
        | .error e => .error (e, s3)
        | .ok s4 => .ok (some r, s4)

/-- Remove the first element equal to `t` (`list.remove` in Python, which
compares dicts by value). -/
def removeFirstEq (tasks : List Task) (t : Task) : List Task :=
  match tasks with
  | [] => []
  | x :: rest => if x = t then rest else x :: removeFirstEq rest t

/-- Set `completed_at`/`updated_at` on the first active task matching
`task_id` (an in-place mutation of the found dict). -/
def stampCompleted (tasks : List Task) (task_id : String) (t' : Task) : List Task :=
  match tasks with
  | [] => []
  | t :: rest =>
    if t.task_id == task_id then t' :: rest
    else t :: stampCompleted rest task_id t'

/-- `AgentService.archive_task` (lines 287–316).  If the id is found in the
active collection: stamp `completed_at`/`updated_at`, append the same object
to the history, remove it from the active list, save the history (which
swallows its own failures) and then the active collection (whose failure is
re-raised by line 316).  If the id is not found, the call is a logged warning
and returns with no state change at all. -/
def archive_task (s : AgentState) (task_id : String) :
    Except (PyErr × AgentState) AgentState :=
  match s.active_tasks.find? (fun t => t.task_id == task_id) with
  | none => .ok s
  | some t =>
    let t' := { t with completed_at := some (PyTime.dt s.clock),
                       updated_at := PyTime.dt (s.clock + 1) }
    let s1 := { s with
      clock := s.clock + 2,
      task_history := s.task_history ++ [t'],
      active_tasks := removeFirstEq (stampCompleted s.active_tasks task_id t') t' }
    let s2 := save_task_history s1
    match save_active_tasks s2 with
    | .ok s3 => .ok s3
    | .error es => .error es

/-- The outcome dict returned by `execute_task`. -/
inductive ExecOutcome
  | successDict (task_id : String)
  | resultDict (r : StepResult)
deriving DecidableEq, Repr

/-- `AgentService.execute_task` (lines 413–459).  Look up the task (not-found
returns an error dict), set the task status to `running` (a no-op, §C4), run
the steps in order halting at the first non-success, then set `completed`
(no-op), archive, and return a success dict.  Any exception lands in the
handler (lines 453–459), which performs one more (no-op) status update and
returns an error dict; an exception raised *inside* the handler would
propagate to the caller (the `.error` case). -/
def execute_task (s : AgentState) (task_id : String) :
    Except (PyErr × AgentState) (ExecOutcome × AgentState) :=
  let body : Except (PyErr × AgentState) (ExecOutcome × AgentState) :=
    match get_task s task_id with
    | none => .ok (.resultDict { status := "error", error := some "Task not found" }, s)
    | some task =>
      match update_task_status s task_id "running" with
      | .error e => .error (e, s)
      | .ok s1 =>
        match executeStepsLoop task_id [] task.steps s1 with
        | .error es => .error es
        | .ok (some r, s2) => .ok (.resultDict r, s2)
        | .ok (none, s2) =>
          match update_task_status s2 task_id "completed" with
          | .error e => .error (e, s2)
          | .ok s3 =>
            match archive_task s3 task_id with
            | .error es => .error es
            | .ok s4 => .ok (.successDict task_id, s4)
  match body with
  | .ok out => .ok out
  | .error (e, s') =>
    match update_task_status s' task_id "failed" with
    | .ok s'' => .ok (.resultDict { status := "error", error := some e.msg }, s'')
    | .error e2 => .error (e2, s')

/-! ### Shared lemmas -/

/-- The membership guard of the two status updaters can never succeed:
`str == dict` is `False` for every element. -/
theorem update_task_status_ok (s : AgentState) (task_id status : String) :
    update_task_status s task_id status = .ok s := by
  simp [update_task_status, pyStrEqDict]

theorem update_step_status_ok (s : AgentState) (task_id step_id status : String) :
    update_step_status s task_id step_id status = .ok s := by
  simp [update_step_status, pyStrEqDict]

/-- The file-system-visible part of a state. -/
def filesOf (s : AgentState) : FileState × Option FileState × FileState :=
  (s.activeFile, s.activeBak, s.historyFile)

theorem execute_step_files (s : AgentState) (task_id : String) (st : Step) :
    filesOf (execute_step s task_id st).2.2 = filesOf s := by
  unfold execute_step
  cases get_task s task_id with
  | none => rfl
  | some t =>
    by_cases h1 : (st.type == "analysis") = true <;>
      by_cases h2 : (st.type == "action") = true <;>
        simp [h1, h2, filesOf]

theorem setTaskStepsById_files (s : AgentState) (task_id : String) (steps : List Step) :
    filesOf (setTaskStepsById s task_id steps) = filesOf s := by
  unfold setTaskStepsById
  rcases s.active_tasks.any (fun t => t.task_id == task_id) <;> rfl

/-- The step loop never raises and leaves every file untouched: there is no
per-step persistence anywhere in it. -/
theorem executeStepsLoop_ok_files (task_id : String) :
    ∀ (todo done : List Step) (s : AgentState),
      ∃ o s', executeStepsLoop task_id done todo s = .ok (o, s') ∧
        filesOf s' = filesOf s := by
  intro todo
  induction todo with
  | nil => intro done s; exact ⟨none, s, rfl, rfl⟩
  | cons st rest ih =>
    intro done s
    unfold executeStepsLoop
    rcases hr : execute_step s task_id st with ⟨r, st', s1⟩
    have hfiles1 : filesOf s1 = filesOf s := by
      have := execute_step_files s task_id st
      rw [hr] at this; exact this
    set s2 := setTaskStepsById s1 task_id (done ++ st' :: rest) with hs2
    have hfiles2 : filesOf s2 = filesOf s := by
      rw [hs2, setTaskStepsById_files]; exact hfiles1
    rcases hb : r.status == "success"
    · simp only [hb, Bool.false_eq_true, if_false, update_step_status_ok,
        update_task_status_ok]
      exact ⟨some r, s2, rfl, hfiles2⟩
    · simp only [hb, if_true, update_step_status_ok]
      obtain ⟨o, s', hloop, hf⟩ := ih (done ++ [st']) s2
      exact ⟨o, s', hloop, by rw [hf]; exact hfiles2⟩

/-! ### C4: the status updaters are no-ops -/

/-- **C4** (confirmed).  For every orchestrator state, every task id and every
status string, `update_task_status` and `update_step_status` return with no
state change at all (in particular the active collection is untouched): the
guard `task_id in self.active_tasks` compares the id string against a list of
task dicts and never succeeds, so no task- or step-level status field is ever
modified through these operations. -/
theorem update_status_never_modifies_state :
    ∀ (s : AgentState) (task_id status step_id : String),
      update_task_status s task_id status = .ok s ∧
      update_step_status s task_id step_id status = .ok s := by
  intro s task_id status step_id
  exact ⟨update_task_status_ok s task_id status,
         update_step_status_ok s task_id step_id status⟩

/-! ### C1: sequential halt, actual behaviour -/

/-- The C1 scenario: one active task with three analysis steps (the claim
additionally stipulates that the second step's model call fails — which the
code cannot realize, see `execute_analysis_step`). -/
def c1Step (i : Nat) : Step :=
  { id := "step_" ++ natToString i, description := "probe", type := "analysis",
    status := "pending", created_at := .dt 0, updated_at := .dt 1 }

def c1Task : Task :=
  { task_id := "task_1", description := "three step task", status := "pending",
    steps := [c1Step 1, c1Step 2, c1Step 3], created_at := .dt 0,
    updated_at := .dt 1 }

def c1State : AgentState :=
  { active_tasks := [c1Task], task_history := [], activeFile := .valid [],
    activeBak := none, historyFile := .valid [], clock := 10, diskOk := true,
    modelCalls := 0 }

/-- **C1** (code_bug evaluation).  The claim's premise — "S2's model call
fails" — is unrealizable: lines 373/399 invoke the async completion client
without `await`, so a model call can never raise and every analysis/action
step unconditionally succeeds.  Running `execute_task` on the stored
three-analysis-step task therefore takes the all-success path: all three
steps end at status `"success"` (never `"completed"` or `"failed"`), no step
halts the loop, and the task is archived — absent from the active collection,
present in the history — with its own status still `"pending"` (the C4 no-op
updaters).  This contradicts the claimed picture on every point: S2 never
becomes `failed`, S3 does not stay `pending`, the task never becomes
`failed`, and it does not remain active. -/
theorem c1_sequential_halt_actual_behaviour :
    ((execute_task c1State "task_1").toOption.map fun p =>
        (p.1,
         p.2.active_tasks.length,
         p.2.task_history.map (fun t => (t.task_id, t.status, t.steps.map Step.status)),
         p.2.modelCalls)) =
      some (.successDict "task_1", 0,
            [("task_1", "pending", ["success", "success", "success"])], 3) := by
  rfl

/-! ### C2: all-success execution, actual behaviour -/

/-- The C2 scenario: one active task with two analysis steps (the un-awaited
completion calls always take the success branch, so all-success is the only
behavior analysis steps can exhibit). -/
def c2Step (i : Nat) : Step :=
  { id := "step_" ++ natToString i, description := "probe", type := "analysis",
    status := "pending", created_at := .dt 0, updated_at := .dt 1 }

def c2Task : Task :=
  { task_id := "task_1", description := "two step task", status := "pending",
    steps := [c2Step 1, c2Step 2], created_at := .dt 0, updated_at := .dt 1 }

def c2State : AgentState :=
  { active_tasks := [c2Task], task_history := [], activeFile := .valid [],
    activeBak := none, historyFile := .valid [], clock := 10, diskOk := true,
    modelCalls := 0 }

/-- **C2** (code_bug evaluation).  After an all-success `execute_task` the
task is indeed moved to the history and removed from the active collection,
with `completed_at = dt 12 ≥ created_at = dt 0` — but its status is still
`"pending"`, not `"completed"`, because `update_task_status` is the no-op of
C4; so the "completed and archived" half of the claimed dichotomy fails on
the status field. -/
theorem c2_all_success_actual_behaviour :
    ((execute_task c2State "task_1").toOption.map fun p =>
        (p.1,
         p.2.active_tasks.length,
         p.2.task_history.map fun t =>
           (t.task_id, t.status, t.created_at, t.completed_at))) =
      some (.successDict "task_1", 0,
            [("task_1", "pending", PyTime.dt 0, some (PyTime.dt 12))]) := by
  rfl

/-! ### Frame lemmas for the save functions -/

/-- `_save_task_history` changes (at most) the history file and nothing
else. -/
theorem save_task_history_shape (s : AgentState) :
    ∃ f, save_task_history s = { s with historyFile := f } := by
  unfold save_task_history
  cases mapExc serializeHistoryTask s.task_history with
  | error e => exact ⟨s.historyFile, rfl⟩
  | ok ts =>
    by_cases h : (s.diskOk && ts.all historyDumpOk) = true
    · exact ⟨.valid ts, by simp [h]⟩
    · exact ⟨s.historyFile, by simp [h]⟩

/-- The in-memory residue of `_save_active_tasks` keeps each task's id (only
steps are rewritten by the shared-dict mutation). -/
theorem mapExc_serializeActiveTask_ids (l : List Task) (pairs : List (Task × Task))
    (h : mapExc serializeActiveTask l = .ok pairs) :
    (pairs.map Prod.snd).map Task.task_id = l.map Task.task_id := by
  induction l generalizing pairs with
  | nil =>
    simp only [mapExc] at h
    cases h; rfl
  | cons t rest ih =>
    simp only [mapExc, bind, Except.bind] at h
    cases hser : serializeActiveTask t with
    | error e => rw [hser] at h; cases h
    | ok p =>
      rw [hser] at h
      cases hrest : mapExc serializeActiveTask rest with
      | error e => rw [hrest] at h; cases h
      | ok ps =>
        rw [hrest] at h
        simp only [pure, Except.pure, Except.ok.injEq] at h
        subst h
        have hp : p.2.task_id = t.task_id := by
          unfold serializeActiveTask at hser
          simp only [bind, Except.bind] at hser
          cases hc : t.created_at.isoformat with
          | error e => rw [hc] at hser; cases hser
          | ok c =>
            rw [hc] at hser
            cases hu : t.updated_at.isoformat with
            | error e => rw [hu] at hser; cases hser
            | ok u =>
              rw [hu] at hser
              cases hst : mapExc serializeStep t.steps with
              | error e => rw [hst] at hser; cases hser
              | ok steps' =>
                rw [hst] at hser
                simp only [pure, Except.pure, Except.ok.injEq] at hser
                subst hser; rfl
        simp [hp, ih ps hrest]

/-- On a successful `_save_active_tasks` everything but the active file and
the step dicts of the active tasks (same ids) is unchanged. -/
theorem save_active_tasks_ok_frame (s s' : AgentState)
    (h : save_active_tasks s = .ok s') :
    s'.activeBak = s.activeBak ∧ s'.historyFile = s.historyFile ∧
    s'.task_history = s.task_history ∧ s'.clock = s.clock ∧
    s'.diskOk = s.diskOk ∧ s'.modelCalls = s.modelCalls ∧
    s'.active_tasks.map Task.task_id = s.active_tasks.map Task.task_id := by
  unfold save_active_tasks at h
  cases hm : mapExc serializeActiveTask s.active_tasks with
  | error e => rw [hm] at h; cases h
  | ok pairs =>
    rw [hm] at h
    by_cases hd : (!s.diskOk) = true
    · simp [hd] at h
    · simp only [hd, Bool.false_eq_true, if_false] at h
      by_cases hdump : (!(pairs.map Prod.fst).all activeDumpOk) = true
      · simp [hdump] at h
      · simp only [hdump, Bool.false_eq_true, if_false, Except.ok.injEq] at h
        subst h
        exact ⟨rfl, rfl, rfl, rfl, rfl, rfl, mapExc_serializeActiveTask_ids _ _ hm⟩

/-- On a failed `_save_active_tasks` the raised exception carries a state in
which no file changed and every task id is in place. -/
theorem save_active_tasks_error_frame (s s' : AgentState) (e : PyErr)
    (h : save_active_tasks s = .error (e, s')) :
    s'.activeFile = s.activeFile ∧ s'.activeBak = s.activeBak ∧
    s'.historyFile = s.historyFile ∧ s'.task_history = s.task_history ∧
    s'.clock = s.clock ∧ s'.diskOk = s.diskOk ∧ s'.modelCalls = s.modelCalls ∧
    s'.active_tasks.map Task.task_id = s.active_tasks.map Task.task_id := by
  unfold save_active_tasks at h
  cases hm : mapExc serializeActiveTask s.active_tasks with
  | error e2 =>
    rw [hm] at h
    simp only [Except.error.injEq, Prod.mk.injEq] at h
    obtain ⟨_, h2⟩ := h
    subst h2
    exact ⟨rfl, rfl, rfl, rfl, rfl, rfl, rfl, rfl⟩
  | ok pairs =>
    rw [hm] at h
    have hids := mapExc_serializeActiveTask_ids _ _ hm
    by_cases hd : (!s.diskOk) = true
    · simp only [hd, if_true, Except.error.injEq, Prod.mk.injEq] at h
      obtain ⟨_, h2⟩ := h
      subst h2
      exact ⟨rfl, rfl, rfl, rfl, rfl, rfl, rfl, hids⟩
    · simp only [hd, Bool.false_eq_true, if_false] at h
      by_cases hdump : (!(pairs.map Prod.fst).all activeDumpOk) = true
      · simp only [hdump, if_true, Except.error.injEq, Prod.mk.injEq] at h
        obtain ⟨_, h2⟩ := h
        subst h2
        exact ⟨rfl, rfl, rfl, rfl, rfl, rfl, rfl, hids⟩
      · simp [hdump] at h

/-- An exception escaping `archive_task` leaves the active file and its
backup untouched (the only possible raise is the active-collection save,
which failed). -/
theorem archive_task_error_frame (s s' : AgentState) (task_id : String) (e : PyErr)
    (h : archive_task s task_id = .error (e, s')) :
    s'.activeFile = s.activeFile ∧ s'.activeBak = s.activeBak := by
  unfold archive_task at h
  cases hf : s.active_tasks.find? (fun t => t.task_id == task_id) with
  | none => rw [hf] at h; cases h
  | some t =>
    rw [hf] at h
    simp only [] at h
    obtain ⟨f, hshape⟩ := save_task_history_shape
      { s with clock := s.clock + 2,
               task_history := s.task_history ++
                 [{ t with completed_at := some (PyTime.dt s.clock),
                           updated_at := PyTime.dt (s.clock + 1) }],
               active_tasks := removeFirstEq
                 (stampCompleted s.active_tasks task_id
                   { t with completed_at := some (PyTime.dt s.clock),
                            updated_at := PyTime.dt (s.clock + 1) })
                 { t with completed_at := some (PyTime.dt s.clock),
                          updated_at := PyTime.dt (s.clock + 1) } }
    rw [hshape] at h
    cases hsave : save_active_tasks _ with
    | ok s3 => rw [hsave] at h; cases h
    | error es =>
      rw [hsave] at h
      cases h
      obtain ⟨h1, h2, _⟩ := save_active_tasks_error_frame _ _ _ hsave
      exact ⟨h1, h2⟩

/-! ### C3: per-step persistence -/

/-- The one step of the C3 scenario: its `type` is unrecognized, the only
way a step can fail in the source (model calls cannot fail, so an
unknown-type step is the realizable halting input). -/
def c3Step : Step :=
  { id := "step_1", description := "probe", type := "unsupported",
    status := "pending", created_at := .dt 2, updated_at := .dt 3 }

def c3Task : Task :=
  { task_id := "task_1", description := "one step task", status := "pending",
    steps := [c3Step], created_at := .dt 0, updated_at := .dt 1 }

/-- The serialized form `_save_active_tasks` wrote at creation time. -/
def c3DiskTask : Task :=
  { task_id := "task_1", description := "one step task", status := "pending",
    steps := [{ id := "step_1", description := "probe", type := "unsupported",
                status := "pending", created_at := .s "2", updated_at := .s "3" }],
    created_at := .s "0", updated_at := .s "1" }

def c3State : AgentState :=
  { active_tasks := [c3Task], task_history := [],
    activeFile := .valid [c3DiskTask], activeBak := none,
    historyFile := .valid [], clock := 10, diskOk := true, modelCalls := 0 }

/-- **C3** (counterexample).  Execute the one-step task whose step has an
unrecognized type — the one failure mode step execution actually has: in
memory the step reaches the terminal result `status = "error"` with its
"Unknown step type" error, the run halts and returns that failure dict, yet
the on-disk active collection still holds the original record with the step
at `"pending"` and no result — the terminal step status was *not* written to
durable storage, so the on-disk collection does not reflect the executed
prefix. -/
theorem c3_per_step_persistence_counterexample :
    ((execute_task c3State "task_1").toOption.map fun p =>
        (p.1,
         p.2.active_tasks.map (fun t => t.steps.map fun st => (st.status, st.result)),
         p.2.activeFile)) =
      some (.resultDict { status := "error", result := none,
                          error := some "Unknown step type: unsupported" },
            [[("error",
               some { status := "error", result := none,
                      error := some "Unknown step type: unsupported" })]],
            .valid [c3DiskTask]) := by
  rfl

/-- **C3** (amended).  `execute_task` performs no mid-task persistence at
all: whenever it returns a failure/error outcome dict (an execution halted at
a failed step — reachable only through an unknown step type — or a failed
lookup), the on-disk active collection and its quarantine backup are exactly
what they were before the call; the active file is only ever written at task
end, by `archive_task` on the all-success path. -/
theorem execute_task_failure_writes_nothing :
    ∀ (s : AgentState) (task_id : String) (r : StepResult) (s' : AgentState),
      execute_task s task_id = .ok (.resultDict r, s') →
      s'.activeFile = s.activeFile ∧ s'.activeBak = s.activeBak := by
  intro s task_id r s' h
  unfold execute_task at h
  cases hg : get_task s task_id with
  | none =>
    rw [hg] at h
    cases h
    exact ⟨rfl, rfl⟩
  | some task =>
    rw [hg] at h
    simp only [update_task_status_ok] at h
    obtain ⟨o, s2, hloop, hfiles⟩ := executeStepsLoop_ok_files task_id task.steps [] s
    rw [hloop] at h
    have hfa : s2.activeFile = s.activeFile := congrArg Prod.fst hfiles
    have hfb : s2.activeBak = s.activeBak := congrArg (fun p => p.2.1) hfiles
    cases o with
    | some r2 =>
      cases h
      exact ⟨hfa, hfb⟩
    | none =>
      simp only [] at h
      cases harch : archive_task s2 task_id with
      | ok s4 =>
        rw [harch] at h
        simp at h
      | error es =>
        rcases es with ⟨e, sE⟩
        rw [harch] at h
        simp only [] at h
        cases h
        obtain ⟨h1, h2⟩ := archive_task_error_frame _ _ _ _ harch
        exact ⟨h1.trans hfa, h2.trans hfb⟩

/-- The state after the halted C3 run. -/
def c3Final : AgentState :=
  { active_tasks := [{ task_id := "task_1", description := "one step task",
                       status := "pending",
                       steps := [{ id := "step_1", description := "probe",
                                   type := "unsupported", status := "error",
                                   result := some { status := "error",
                                                    error := some "Unknown step type: unsupported" },
                                   created_at := .dt 2, updated_at := .dt 10 }],
                       created_at := .dt 0, updated_at := .dt 1 }],
    task_history := [], activeFile := .valid [c3DiskTask], activeBak := none,
    historyFile := .valid [], clock := 11, diskOk := true, modelCalls := 0 }

/-- Witness for the amended C3 statement at the concrete halted run. -/
theorem execute_task_failure_writes_nothing_witness :
    execute_task c3State "task_1" =
      .ok (.resultDict { status := "error", result := none,
                         error := some "Unknown step type: unsupported" }, c3Final) ∧
    c3Final.activeFile = c3State.activeFile ∧
    c3Final.activeBak = c3State.activeBak :=
  ⟨by rfl,
   execute_task_failure_writes_nothing c3State "task_1"
     { status := "error", result := none, error := some "Unknown step type: unsupported" }
     c3Final (by rfl)⟩

/-! ### C10: archive idempotence -/

/-- Counting id matches only looks at the projected id list. -/
theorem countP_by_id (l : List Task) (tid : String) :
    l.countP (fun x => x.task_id == tid) =
      (l.map Task.task_id).countP (fun i => i == tid) := by
  induction l with
  | nil => rfl
  | cons x rest ih => simp [List.countP_cons, ih]

/-- Archiving the first match decrements the number of active tasks carrying
the archived id by exactly one. -/
theorem countP_remove_stamp (task_id : String) (t' : Task)
    (hp : (t'.task_id == task_id) = true) :
    ∀ (l : List Task) (t : Task),
      l.find? (fun x => x.task_id == task_id) = some t →
      (removeFirstEq (stampCompleted l task_id t') t').countP
          (fun x => x.task_id == task_id) =
        l.countP (fun x => x.task_id == task_id) - 1 := by
  intro l
  induction l with
  | nil => intro t ht; cases ht
  | cons x rest ih =>
    intro t ht
    by_cases hx : (x.task_id == task_id) = true
    · simp only [stampCompleted, hx, if_true, removeFirstEq, if_pos rfl]
      rw [List.countP_cons_of_pos (p := fun x => x.task_id == task_id) rest hx]
      omega
    · have hxt : x ≠ t' := by
        intro hcontra
        rw [hcontra] at hx
        exact hx hp
      rw [List.find?_cons_of_neg (p := fun x : Task => x.task_id == task_id) rest hx] at ht
      simp only [stampCompleted, hx, Bool.false_eq_true, if_false, removeFirstEq,
        if_neg hxt]
      rw [List.countP_cons_of_neg (p := fun x : Task => x.task_id == task_id) _ hx,
          List.countP_cons_of_neg (p := fun x : Task => x.task_id == task_id) _ hx,
          ih t ht]

/-- **C10** (confirmed).  Archiving an id that is absent from the active
collection is a complete no-op (state, files and all — no error is raised);
consequently, when active ids are not duplicated, a second `archive_task`
after a successful one changes nothing and raises nothing. -/
theorem archive_task_idempotent :
    ∀ (s : AgentState) (task_id : String),
      (s.active_tasks.countP (fun t => t.task_id == task_id) = 0 →
        archive_task s task_id = .ok s) ∧
      (s.active_tasks.countP (fun t => t.task_id == task_id) ≤ 1 →
        ∀ s', archive_task s task_id = .ok s' →
          archive_task s' task_id = .ok s') := by
  have noop : ∀ (s : AgentState) (task_id : String),
      s.active_tasks.countP (fun t => t.task_id == task_id) = 0 →
      archive_task s task_id = .ok s := by
    intro s task_id h0
    have hfind : s.active_tasks.find? (fun t => t.task_id == task_id) = none :=
      List.find?_eq_none.mpr (List.countP_eq_zero.mp h0)
    unfold archive_task
    rw [hfind]
  intro s task_id
  refine ⟨noop s task_id, ?_⟩
  intro hle s' harch
  apply noop
  unfold archive_task at harch
  cases hfind : s.active_tasks.find? (fun t => t.task_id == task_id) with
  | none =>
    rw [hfind] at harch
    cases harch
    exact List.countP_eq_zero.mpr (List.find?_eq_none.mp hfind)
  | some t =>
    rw [hfind] at harch
    simp only [] at harch
    have hpt : (t.task_id == task_id) = true := by
      have hres := List.find?_some hfind
      exact hres
    set t' : Task := { t with completed_at := some (PyTime.dt s.clock),
                              updated_at := PyTime.dt (s.clock + 1) } with ht'
    have hpt' : (t'.task_id == task_id) = true := hpt
    have hcount1 : 0 < s.active_tasks.countP (fun x => x.task_id == task_id) :=
      List.countP_pos_iff.mpr ⟨t, List.mem_of_find?_eq_some hfind, hpt⟩
    have hremoved := countP_remove_stamp task_id t' hpt' s.active_tasks t hfind
    obtain ⟨f, hshape⟩ := save_task_history_shape
      { s with clock := s.clock + 2,
               task_history := s.task_history ++ [t'],
               active_tasks := removeFirstEq (stampCompleted s.active_tasks task_id t') t' }
    rw [hshape] at harch
    cases hsave : save_active_tasks _ with
    | error es => rw [hsave] at harch; cases harch
    | ok s3 =>
      rw [hsave] at harch
      cases harch
      obtain ⟨_, _, _, _, _, _, hids⟩ := save_active_tasks_ok_frame _ _ hsave
      rw [countP_by_id, hids, ← countP_by_id, hremoved]
      omega

/-- C10 witness state: one active archivable task. -/
def c10Task : Task :=
  { task_id := "task_1", description := "archivable", status := "completed",
    steps := [], created_at := .dt 0, updated_at := .dt 1 }

def c10State : AgentState :=
  { active_tasks := [c10Task], task_history := [], activeFile := .valid [],
    activeBak := none, historyFile := .valid [], clock := 5, diskOk := true,
    modelCalls := 0 }

/-- The state after the first successful `archive_task` on `c10State`. -/
def c10Archived : AgentState :=
  { active_tasks := [],
    task_history := [{ task_id := "task_1", description := "archivable",
                       context := [], status := "completed", steps := [],
                       created_at := .dt 0, updated_at := .dt 6,
                       completed_at := some (.dt 5) }],
    activeFile := .valid [],
    activeBak := none,
    historyFile := .valid
      [{ task_id := "task_1", description := "archivable", context := [],
         status := "completed", steps := [], created_at := .s "",
         updated_at := .s "6", completed_at := some (.s "5") }],
    clock := 7, diskOk := true, modelCalls := 0 }

/-- Witness for C10: archiving a missing id is a no-op, and a second
`archive_task` after the successful first one is a no-op. -/
theorem archive_task_idempotent_witness :
    archive_task c10State "task_9" = .ok c10State ∧
    archive_task c10Archived "task_1" = .ok c10Archived :=
  ⟨(archive_task_idempotent c10State "task_9").1 (by rfl),
   (archive_task_idempotent c10State "task_1").2 (by decide) c10Archived (by rfl)⟩

/-! ### C5: corruption recovery on load -/

/-- A store whose history file is corrupt, with a stale in-memory history. -/
def c5Start : AgentState :=
  { active_tasks := [],
    task_history := [{ task_id := "task_1", description := "stale",
                       status := "completed", steps := [], created_at := .dt 0,
                       updated_at := .dt 1 }],
    activeFile := .valid [], activeBak := none,
    historyFile := .corrupt "oops not json", clock := 0, diskOk := true,
    modelCalls := 0 }

/-- **C5** (counterexample).  Loading the *history* collection from a corrupt
file only resets the in-memory list to `[]`: the corrupt file is left exactly
in place — it is **not** renamed to a `.bak` backup and no empty file is
recreated, contradicting the claim that every collection gets the
quarantine-and-reinitialize treatment.  (The `except json.JSONDecodeError`
handler with the rename exists only in `_load_active_tasks`;
`_load_task_history` has just the generic handler.) -/
theorem c5_history_corruption_counterexample :
    load_task_history c5Start =
      { active_tasks := [], task_history := [], activeFile := .valid [],
        activeBak := none, historyFile := .corrupt "oops not json", clock := 0,
        diskOk := true, modelCalls := 0 } := by
  rfl

/-- **C5** (amended).  On a corrupt backing file neither loader propagates a
parse error, but the recovery differs per collection: `_load_active_tasks`
quarantines the corrupt file as `<file>.bak`, recreates an empty file and
returns an empty collection, while `_load_task_history` only resets the
in-memory collection to empty, leaving the corrupt file untouched on disk. -/
theorem corruption_recovery_per_collection :
    ∀ (s : AgentState) (raw : String),
      (s.activeFile = .corrupt raw → s.diskOk = true →
        load_active_tasks s =
          { s with active_tasks := [], activeFile := .valid [],
                   activeBak := some (.corrupt raw) }) ∧
      (s.historyFile = .corrupt raw →
        load_task_history s = { s with task_history := [] }) := by
  intro s raw
  constructor
  · intro h1 h2
    unfold load_active_tasks
    rw [h1, h2]
    rfl
  · intro h
    unfold load_task_history
    rw [h]

/-- C5 witness state: both files corrupt. -/
def c5Both : AgentState :=
  { active_tasks := [], task_history := [], activeFile := .corrupt "also not json bytes",
    activeBak := none, historyFile := .corrupt "also not json bytes", clock := 3,
    diskOk := true, modelCalls := 0 }

/-- Witness for the amended C5 statement. -/
theorem corruption_recovery_per_collection_witness :
    load_active_tasks c5Both =
      { c5Both with active_tasks := [], activeFile := .valid [],
                    activeBak := some (.corrupt "also not json bytes") } ∧
    load_task_history c5Both = { c5Both with task_history := [] } :=
  ⟨(corruption_recovery_per_collection c5Both "also not json bytes").1 rfl rfl,
   (corruption_recovery_per_collection c5Both "also not json bytes").2 rfl⟩

/-! ### C6: save failures -/

/-- A store with a serializable history and a failing disk. -/
def c6State : AgentState :=
  { active_tasks := [{ task_id := "task_1", description := "active",
                       status := "pending", steps := [], created_at := .dt 0,
                       updated_at := .dt 1 }],
    task_history := [{ task_id := "task_2", description := "done",
                       status := "completed", steps := [], created_at := .dt 0,
                       updated_at := .dt 1, completed_at := some (.dt 2) }],
    activeFile := .valid [], activeBak := none, historyFile := .valid [],
    clock := 5, diskOk := false, modelCalls := 0 }

/-- **C6** (counterexample).  With a failing disk, `_save_task_history`
returns normally with no state change and no error: the write failure is
logged and swallowed (its `except` block has no `raise`), contradicting the
claim that a save failure propagates for *every* collection. -/
theorem c6_history_save_failure_swallowed :
    save_task_history c6State = c6State := by
  rfl

/-- **C6** (amended).  On a write failure `_save_active_tasks` does raise to
its caller (line 179 re-raises), but `_save_task_history` swallows the
failure and returns normally with the state unchanged. -/
theorem save_failure_surfaced_only_for_active :
    ∀ s : AgentState, s.diskOk = false →
      (∃ e s₁, save_active_tasks s = .error (e, s₁)) ∧
      save_task_history s = s := by
  intro s h
  constructor
  · unfold save_active_tasks
    cases hm : mapExc serializeActiveTask s.active_tasks with
    | error e => exact ⟨e, s, rfl⟩
    | ok pairs =>
      refine ⟨.ioError, { s with active_tasks := pairs.map Prod.snd }, ?_⟩
      simp [h]
  · unfold save_task_history
    cases hm : mapExc serializeHistoryTask s.task_history with
    | error e => rfl
    | ok ts => simp [h]

/-- Witness for the amended C6 statement at the concrete failing-disk
store. -/
theorem save_failure_surfaced_only_for_active_witness :
    save_active_tasks c6State = .error (.ioError, c6State) ∧
    save_task_history c6State = c6State :=
  ⟨by rfl, (save_failure_surfaced_only_for_active c6State rfl).2⟩

/-! ### C8: planner degrade -/

theorem mapExc_length {α β : Type} (f : α → Except PyErr β) :
    ∀ (l : List α) (bs : List β), mapExc f l = .ok bs → bs.length = l.length := by
  intro l
  induction l with
  | nil => intro bs h; cases h; rfl
  | cons x xs ih =>
    intro bs h
    simp only [mapExc, bind, Except.bind] at h
    cases hfx : f x with
    | error e => rw [hfx] at h; cases h
    | ok bx =>
      rw [hfx] at h
      cases hxs : mapExc f xs with
      | error e => rw [hxs] at h; cases h
      | ok bxs =>
        rw [hxs] at h
        simp only [pure, Except.pure, Except.ok.injEq] at h
        subst h
        simp [ih bxs hxs]

theorem mapExc_snoc {α β : Type} (f : α → Except PyErr β) :
    ∀ (l : List α) (a : α) (bs : List β) (b : β),
      mapExc f l = .ok bs → f a = .ok b →
      mapExc f (l ++ [a]) = .ok (bs ++ [b]) := by
  intro l
  induction l with
  | nil =>
    intro a bs b h1 h2
    cases h1
    simp [mapExc, h2, bind, Except.bind, pure, Except.pure]
  | cons x xs ih =>
    intro a bs b h1 h2
    simp only [mapExc, bind, Except.bind] at h1
    simp only [List.cons_append, mapExc, bind, Except.bind, List.append_eq]
    cases hfx : f x with
    | error e => rw [hfx] at h1; cases h1
    | ok bx =>
      rw [hfx] at h1
      cases hxs : mapExc f xs with
      | error e => rw [hxs] at h1; cases h1
      | ok bxs =>
        rw [hxs] at h1
        simp only [pure, Except.pure, Except.ok.injEq] at h1
        subst h1
        rw [ih a bxs b hxs h2]
        rfl

/-- An unparsable planner response degrades to zero steps with no exception
and no state change. -/
theorem plan_task_steps_unparsable (jsonLoads : String → Option (List Step))
    (response : String) (s : AgentState)
    (hparse : jsonLoads (postprocessResponse response) = none) :
    plan_task_steps jsonLoads response s = ([], s) := by
  unfold plan_task_steps
  rw [hparse]
  rfl

/-- **C8** (confirmed).  When the post-processed model response fails to
parse as JSON the planner returns an empty step list without raising, and
`create_task` still succeeds: it returns a task with `status = "pending"`
and an empty step sequence, appended as the new last element of the active
collection (hypotheses: the disk accepts the write and the pre-existing
active tasks are serializable, as they are for store-written records). -/
theorem create_task_unparsable_planner_succeeds :
    ∀ (jsonLoads : String → Option (List Step)) (response description : String)
      (context : List (String × String)) (s : AgentState)
      (pairs : List (Task × Task)),
      jsonLoads (postprocessResponse response) = none →
      s.diskOk = true →
      mapExc serializeActiveTask s.active_tasks = .ok pairs →
      (pairs.map Prod.fst).all activeDumpOk = true →
      ∃ t s', create_task jsonLoads response description context s = .ok (t, s') ∧
        t.status = "pending" ∧ t.steps = [] ∧
        s'.active_tasks.length = s.active_tasks.length + 1 ∧
        s'.active_tasks.getLast? = some t := by
  intro jsonLoads response description context s pairs hparse hdisk hser hdump
  unfold create_task
  rw [plan_task_steps_unparsable jsonLoads response s hparse]
  simp only []
  set task : Task := {
    task_id := "task_" ++ natToString (s.active_tasks.length + s.task_history.length + 1),
    description := description, context := context,
    status := "pending", steps := [],
    created_at := PyTime.dt s.clock, updated_at := PyTime.dt (s.clock + 1) } with htask
  set tS : Task := ({ task with created_at := .s (natToString s.clock), updated_at := .s (natToString (s.clock + 1)) }) with htS
  have hsertask : serializeActiveTask task = .ok (tS, task) := by
    rw [htask, htS]
    rfl
  have hmap := mapExc_snoc serializeActiveTask s.active_tasks task pairs _ hser hsertask
  unfold save_active_tasks
  rw [hmap]
  have hall : ((pairs ++ [(tS, task)]).map Prod.fst).all activeDumpOk = true := by
    rw [List.map_append, List.all_append, hdump]
    rw [htS, htask]
    rfl
  simp only []
  rw [hdisk, hall]
  simp only [Bool.not_true, Bool.false_eq_true, if_false]
  simp only [List.map_append, List.map_cons, List.map_nil, List.getLastD_concat]
  refine ⟨task, _, rfl, rfl, rfl, ?_, ?_⟩
  · simp only [List.length_append, List.length_map, List.length_cons, List.length_nil]
    rw [mapExc_length serializeActiveTask s.active_tasks pairs hser]
  · rw [List.getLast?_concat]

/-- C8 witness state: a fresh store. -/
def c8State : AgentState :=
  { active_tasks := [], task_history := [], activeFile := .valid [],
    activeBak := none, historyFile := .valid [], clock := 0, diskOk := true,
    modelCalls := 0 }

/-- Witness for C8 at a planner whose output never parses. -/
theorem create_task_unparsable_planner_succeeds_witness :
    (create_task (fun _ => none) "not json at all" "demo task" [] c8State).toOption.map
        (fun p => (p.1.status, p.1.steps, p.2.active_tasks.length,
                   p.2.active_tasks.getLast? = some p.1)) =
      some ("pending", [], 1, True) := by
  obtain ⟨t, s', heq, hst, hsteps, hlen, hlast⟩ :=
    create_task_unparsable_planner_succeeds (fun _ => none) "not json at all"
      "demo task" [] c8State [] rfl rfl rfl rfl
  rw [heq]
  simp only [Except.toOption, Option.map, Option.some.injEq, Prod.mk.injEq]
  exact ⟨hst, hsteps, by rw [hlen]; rfl, by rw [hlast]; simp⟩

/-! ### C7: save/load round-trip -/

/-- One public orchestrator operation. -/
inductive Op
  | create (description response : String)
      (jsonLoads : String → Option (List Step)) (context : List (String × String))
  | execute (task_id : String)
  | archive (task_id : String)

/-- Run one operation; a raised exception leaves the mutations made before
the raise in place (Python state is not rolled back). -/
def runOp (s : AgentState) : Op → AgentState
  | .create d r p c =>
    match create_task p r d c s with
    | .ok (_, s') => s'
    | .error (_, s') => s'
  | .execute tid =>
    match execute_task s tid with
    | .ok (_, s') => s'
    | .error (_, s') => s'
  | .archive tid =>
    match archive_task s tid with
    | .ok s' => s'
    | .error (_, s') => s'

/-- The state after `AgentService.__init__` with no files on disk: history
loaded first, then active tasks (lines 46–47), both created empty. -/
def initState : AgentState :=
  load_active_tasks (load_task_history
    { active_tasks := [], task_history := [], activeFile := .absent,
      activeBak := none, historyFile := .absent, clock := 0, diskOk := true,
      modelCalls := 0 })

def runOps (s : AgentState) (ops : List Op) : AgentState := ops.foldl runOp s

/-- All task ids the service currently knows (active, then archived). -/
def idsOf (s : AgentState) : List String :=
  (s.active_tasks ++ s.task_history).map Task.task_id

def totalOf (s : AgentState) : Nat :=
  s.active_tasks.length + s.task_history.length

/-- The reachable-state invariant behind id freshness: every stored id is
`task_<k>` with `1 ≤ k ≤` the current active+archived count. -/
def IdInv (s : AgentState) : Prop :=
  ∀ i ∈ idsOf s, ∃ k, 1 ≤ k ∧ k ≤ totalOf s ∧ i = "task_" ++ natToString k

theorem append_left_cancel_str (p x y : String) (h : p ++ x = p ++ y) : x = y := by
  have hd : p.data ++ x.data = p.data ++ y.data := congrArg String.data h
  have := List.append_cancel_left hd
  cases x with
  | mk xd =>
    cases y with
    | mk yd => exact congrArg String.mk (by simpa using this)

theorem taskId_encode_injective (a b : Nat)
    (h : "task_" ++ natToString a = "task_" ++ natToString b) : a = b :=
  natToString_injective (append_left_cancel_str _ _ _ h)

/-- Planning only advances the clock: collections and files are unchanged. -/
theorem plan_task_steps_state (p : String → Option (List Step)) (r : String)
    (s : AgentState) :
    ∃ cl, (plan_task_steps p r s).2 = { s with clock := cl } :=
  ⟨(attachLifecycle 1 s.clock ((p (postprocessResponse r)).getD [])).2, rfl⟩

theorem getLastD_map_concat {α β : Type} (f : α → β) (l : List α) (l2 : List β)
    (x : β) (d : α) (h : l.map f = l2 ++ [x]) : f (l.getLastD d) = x := by
  cases hl : l.getLast? with
  | none =>
    rw [List.getLast?_eq_none_iff.mp hl] at h
    exact absurd h.symm (List.append_ne_nil_of_right_ne_nil l2 (by simp))
  | some u =>
    have h1 : (l.map f).getLast? = some x := by rw [h]; exact List.getLast?_concat l2
    rw [List.getLast?_map, hl] at h1
    simp only [Option.map] at h1
    cases h1
    rw [List.getLastD_eq_getLast?, hl]
    rfl

/-- `create_task` always appends exactly one task, with the counted id, to
the active collection (even when the save then raises), and never touches
the history; on success the returned record carries that id. -/
theorem create_task_state (p : String → Option (List Step)) (r d : String)
    (c : List (String × String)) (s : AgentState) :
    (∀ t s', create_task p r d c s = .ok (t, s') →
      s'.active_tasks.map Task.task_id =
        s.active_tasks.map Task.task_id ++ ["task_" ++ natToString (totalOf s + 1)] ∧
      s'.task_history = s.task_history ∧
      t.task_id = "task_" ++ natToString (totalOf s + 1)) ∧
    (∀ e s', create_task p r d c s = .error (e, s') →
      s'.active_tasks.map Task.task_id =
        s.active_tasks.map Task.task_id ++ ["task_" ++ natToString (totalOf s + 1)] ∧
      s'.task_history = s.task_history) := by
  obtain ⟨cl, hplan⟩ := plan_task_steps_state p r s
  rcases hpair : plan_task_steps p r s with ⟨steps, s1⟩
  rw [hpair] at hplan
  subst hplan
  constructor
  · intro t s' hok
    unfold create_task at hok
    rw [hpair] at hok
    simp only [] at hok
    cases hsave : save_active_tasks
        { active_tasks := s.active_tasks ++ [{
            task_id := "task_" ++ natToString (s.active_tasks.length + s.task_history.length + 1),
            description := d, context := c, status := "pending", steps := steps,
            created_at := PyTime.dt cl, updated_at := PyTime.dt (cl + 1) }],
          task_history := s.task_history, activeFile := s.activeFile,
          activeBak := s.activeBak, historyFile := s.historyFile,
          clock := cl + 2, diskOk := s.diskOk, modelCalls := s.modelCalls } with
    | error es => rw [hsave] at hok; cases hok
    | ok s3 =>
      rw [hsave] at hok
      cases hok
      obtain ⟨_, _, hhist, _, _, _, hids⟩ := save_active_tasks_ok_frame _ _ hsave
      simp only [List.map_append, List.map_cons, List.map_nil] at hids
      refine ⟨hids, hhist, ?_⟩
      exact getLastD_map_concat Task.task_id _ _ _ _ hids
  · intro e s' herr
    unfold create_task at herr
    rw [hpair] at herr
    simp only [] at herr
    cases hsave : save_active_tasks
        { active_tasks := s.active_tasks ++ [{
            task_id := "task_" ++ natToString (s.active_tasks.length + s.task_history.length + 1),
            description := d, context := c, status := "pending", steps := steps,
            created_at := PyTime.dt cl, updated_at := PyTime.dt (cl + 1) }],
          task_history := s.task_history, activeFile := s.activeFile,
          activeBak := s.activeBak, historyFile := s.historyFile,
          clock := cl + 2, diskOk := s.diskOk, modelCalls := s.modelCalls } with
    | ok s3 => rw [hsave] at herr; cases herr
    | error es =>
      rcases es with ⟨e2, sE⟩
      rw [hsave] at herr
      cases herr
      obtain ⟨_, _, _, hhist, _, _, _, hids⟩ := save_active_tasks_error_frame _ _ _ hsave
      simp only [List.map_append, List.map_cons, List.map_nil] at hids
      exact ⟨hids, hhist⟩

theorem execute_step_collections (s : AgentState) (task_id : String) (st : Step) :
    (execute_step s task_id st).2.2.active_tasks = s.active_tasks ∧
    (execute_step s task_id st).2.2.task_history = s.task_history := by
  unfold execute_step
  cases get_task s task_id with
  | none => exact ⟨rfl, rfl⟩
  | some t =>
    by_cases h1 : (st.type == "analysis") = true <;>
      by_cases h2 : (st.type == "action") = true <;>
        simp [h1, h2]

theorem replaceStepsById_ids (l : List Task) (tid : String) (steps : List Step) :
    (replaceStepsById l tid steps).map Task.task_id = l.map Task.task_id := by
  induction l with
  | nil => rfl
  | cons t rest ih =>
    unfold replaceStepsById
    by_cases h : (t.task_id == tid) = true <;> simp [h, ih]

theorem setTaskStepsById_ids (s : AgentState) (tid : String) (steps : List Step) :
    (setTaskStepsById s tid steps).active_tasks.map Task.task_id =
      s.active_tasks.map Task.task_id ∧
    (setTaskStepsById s tid steps).task_history.map Task.task_id =
      s.task_history.map Task.task_id := by
  unfold setTaskStepsById
  by_cases h : (s.active_tasks.any fun t => t.task_id == tid) = true <;>
    simp [h, replaceStepsById_ids]

/-- The step loop never changes which tasks are where: both id lists are
exactly preserved. -/
theorem executeStepsLoop_ids (task_id : String) :
    ∀ (todo done : List Step) (s : AgentState) (o : Option StepResult)
      (s' : AgentState),
      executeStepsLoop task_id done todo s = .ok (o, s') →
      s'.active_tasks.map Task.task_id = s.active_tasks.map Task.task_id ∧
      s'.task_history.map Task.task_id = s.task_history.map Task.task_id := by
  intro todo
  induction todo with
  | nil =>
    intro done s o s' h
    cases h
    exact ⟨rfl, rfl⟩
  | cons st rest ih =>
    intro done s o s' h
    unfold executeStepsLoop at h
    rcases hr : execute_step s task_id st with ⟨r, st2, s1⟩
    rw [hr] at h
    simp only [] at h
    have hcoll := execute_step_collections s task_id st
    rw [hr] at hcoll
    have hset := setTaskStepsById_ids s1 task_id (done ++ st2 :: rest)
    by_cases hb : (r.status == "success") = true
    · rw [if_pos hb] at h
      rw [update_step_status_ok] at h
      obtain ⟨ha2, hh2⟩ := ih (done ++ [st2]) _ o s' h
      refine ⟨?_, ?_⟩
      · rw [ha2, hset.1, hcoll.1]
      · rw [hh2, hset.2, congrArg (List.map Task.task_id) hcoll.2]
    · rw [if_neg hb] at h
      rw [update_step_status_ok] at h
      simp only [] at h
      rw [update_task_status_ok] at h
      cases h
      refine ⟨?_, ?_⟩
      · rw [hset.1, hcoll.1]
      · rw [hset.2, congrArg (List.map Task.task_id) hcoll.2]

theorem stampCompleted_ids (l : List Task) (tid : String) (t' : Task)
    (ht' : t'.task_id = tid) :
    (stampCompleted l tid t').map Task.task_id = l.map Task.task_id := by
  induction l with
  | nil => rfl
  | cons x rest ih =>
    unfold stampCompleted
    by_cases h : (x.task_id == tid) = true
    · have hx : x.task_id = tid := by simpa using h
      simp [h, ht', hx]
    · simp [h, ih]

theorem stampCompleted_mem_self (l : List Task) (tid : String) (t t' : Task)
    (hfind : l.find? (fun x => x.task_id == tid) = some t) :
    t' ∈ stampCompleted l tid t' := by
  induction l with
  | nil => cases hfind
  | cons x rest ih =>
    unfold stampCompleted
    by_cases h : (x.task_id == tid) = true
    · simp [h]
    · rw [List.find?_cons_of_neg (p := fun x : Task => x.task_id == tid) rest h] at hfind
      simp [h, ih hfind]

theorem stampCompleted_mem_of (l : List Task) (tid : String) (t' x : Task)
    (hx : x ∈ stampCompleted l tid t') : x ∈ l ∨ x = t' := by
  induction l with
  | nil => cases hx
  | cons y rest ih =>
    unfold stampCompleted at hx
    by_cases h : (y.task_id == tid) = true
    · rw [if_pos h] at hx
      rcases List.mem_cons.mp hx with h1 | h1
      · exact Or.inr h1
      · exact Or.inl (List.mem_cons_of_mem _ h1)
    · rw [if_neg h] at hx
      rcases List.mem_cons.mp hx with h1 | h1
      · exact Or.inl (by rw [h1]; exact List.mem_cons_self _ _)
      · rcases ih h1 with h2 | h2
        · exact Or.inl (List.mem_cons_of_mem _ h2)
        · exact Or.inr h2

theorem stampCompleted_length (l : List Task) (tid : String) (t' : Task) :
    (stampCompleted l tid t').length = l.length := by
  induction l with
  | nil => rfl
  | cons x rest ih =>
    unfold stampCompleted
    by_cases h : (x.task_id == tid) = true <;> simp [h, ih]

theorem removeFirstEq_mem (l : List Task) (t x : Task)
    (hx : x ∈ removeFirstEq l t) : x ∈ l := by
  induction l with
  | nil => cases hx
  | cons y rest ih =>
    unfold removeFirstEq at hx
    by_cases h : y = t
    · rw [if_pos h] at hx
      exact List.mem_cons_of_mem _ hx
    · rw [if_neg h] at hx
      rcases List.mem_cons.mp hx with h1 | h1
      · exact h1 ▸ List.mem_cons_self _ _
      · exact List.mem_cons_of_mem _ (ih h1)

theorem removeFirstEq_length (l : List Task) (t : Task) (ht : t ∈ l) :
    (removeFirstEq l t).length + 1 = l.length := by
  induction l with
  | nil => cases ht
  | cons y rest ih =>
    unfold removeFirstEq
    by_cases h : y = t
    · simp [h]
    · have hrest : t ∈ rest := by
        rcases List.mem_cons.mp ht with h1 | h1
        · exact absurd h1.symm h
        · exact h1
      simp [h, ih hrest]

/-- `archive_task` only moves an existing task (same id) from the active
collection to the history: no new ids appear and the total count is
preserved — in both the normal and the raising outcome. -/
theorem archive_task_state (s : AgentState) (tid : String) :
    (∀ s', archive_task s tid = .ok s' →
      (∀ i ∈ idsOf s', i ∈ idsOf s) ∧ totalOf s' = totalOf s) ∧
    (∀ e s', archive_task s tid = .error (e, s') →
      (∀ i ∈ idsOf s', i ∈ idsOf s) ∧ totalOf s' = totalOf s) := by
  cases hfind : s.active_tasks.find? (fun t => t.task_id == tid) with
  | none =>
    constructor
    · intro s' h
      unfold archive_task at h
      rw [hfind] at h
      cases h
      exact ⟨fun i hi => hi, rfl⟩
    · intro e s' h
      unfold archive_task at h
      rw [hfind] at h
      cases h
  | some t =>
    have hpt : (t.task_id == tid) = true := by
      have hres := List.find?_some hfind
      exact hres
    have htid : t.task_id = tid := by simpa using hpt
    have hmem : t ∈ s.active_tasks := List.mem_of_find?_eq_some hfind
    -- the post-move state, before any save
    set t' : Task := { t with completed_at := some (PyTime.dt s.clock), updated_at := PyTime.dt (s.clock + 1) } with ht'
    have ht'id : t'.task_id = tid := htid
    set s1 : AgentState := { s with
      clock := s.clock + 2,
      task_history := s.task_history ++ [t'],
      active_tasks := removeFirstEq (stampCompleted s.active_tasks tid t') t' } with hs1
    have hmemStamp : t' ∈ stampCompleted s.active_tasks tid t' :=
      stampCompleted_mem_self s.active_tasks tid t t' hfind
    have hs1ids : ∀ i ∈ idsOf s1, i ∈ idsOf s := by
      intro i hi
      unfold idsOf at hi ⊢
      rw [List.mem_map] at hi
      obtain ⟨u, hu, hui⟩ := hi
      rcases List.mem_append.mp hu with hu1 | hu1
      · have : u ∈ stampCompleted s.active_tasks tid t' :=
          removeFirstEq_mem _ _ _ hu1
        rcases stampCompleted_mem_of _ _ _ _ this with h2 | h2
        · exact List.mem_map.mpr ⟨u, List.mem_append.mpr (Or.inl h2), hui⟩
        · subst h2
          exact List.mem_map.mpr ⟨t, List.mem_append.mpr (Or.inl hmem), hui⟩
      · rcases List.mem_append.mp hu1 with hu2 | hu2
        · exact List.mem_map.mpr ⟨u, List.mem_append.mpr (Or.inr hu2), hui⟩
        · have heq : u = t' := List.mem_singleton.mp hu2
          subst heq
          exact List.mem_map.mpr ⟨t, List.mem_append.mpr (Or.inl hmem), hui⟩
    have hs1total : totalOf s1 = totalOf s := by
      unfold totalOf
      rw [hs1]
      simp only [List.length_append, List.length_cons, List.length_nil]
      have h1 := removeFirstEq_length (stampCompleted s.active_tasks tid t') t' hmemStamp
      rw [stampCompleted_length] at h1
      omega
    obtain ⟨f, hshape⟩ := save_task_history_shape s1
    have hsh_ids : idsOf (save_task_history s1) = idsOf s1 := by
      rw [hshape]; rfl
    have hsh_total : totalOf (save_task_history s1) = totalOf s1 := by
      rw [hshape]; rfl
    constructor
    · intro s' h
      unfold archive_task at h
      rw [hfind] at h
      simp only [] at h
      rw [← ht', ← hs1, hshape] at h
      cases hsave : save_active_tasks { s1 with historyFile := f } with
      | error es => rw [hsave] at h; cases h
      | ok s3 =>
        rw [hsave] at h
        cases h
        obtain ⟨_, _, hhist, _, _, _, hids⟩ := save_active_tasks_ok_frame _ _ hsave
        constructor
        · intro i hi
          apply hs1ids
          unfold idsOf at hi ⊢
          rw [List.map_append] at hi ⊢
          rw [hids, hhist] at hi
          exact hi
        · unfold totalOf at hs1total ⊢
          have h1 : s'.active_tasks.length = s1.active_tasks.length := by
            have := congrArg List.length hids
            simpa using this
          have h2 : s'.task_history.length = s1.task_history.length := by
            rw [hhist]
          omega
    · intro e s' h
      unfold archive_task at h
      rw [hfind] at h
      simp only [] at h
      rw [← ht', ← hs1, hshape] at h
      cases hsave : save_active_tasks { s1 with historyFile := f } with
      | ok s3 => rw [hsave] at h; cases h
      | error es =>
        rcases es with ⟨e2, sE⟩
        rw [hsave] at h
        cases h
        obtain ⟨_, _, _, hhist, _, _, _, hids⟩ := save_active_tasks_error_frame _ _ _ hsave
        constructor
        · intro i hi
          apply hs1ids
          unfold idsOf at hi ⊢
          rw [List.map_append] at hi ⊢
          rw [hids, hhist] at hi
          exact hi
        · unfold totalOf at hs1total ⊢
          have h1 : s'.active_tasks.length = s1.active_tasks.length := by
            have := congrArg List.length hids
            simpa using this
          have h2 : s'.task_history.length = s1.task_history.length := by
            rw [hhist]
          omega

/-- `execute_task` can relocate a task (archival) but never invents an id
and never changes the total active+archived count. -/
theorem execute_task_state (s : AgentState) (tid : String) :
    (∀ out s', execute_task s tid = .ok (out, s') →
      (∀ i ∈ idsOf s', i ∈ idsOf s) ∧ totalOf s' = totalOf s) ∧
    (∀ e s', execute_task s tid = .error (e, s') →
      (∀ i ∈ idsOf s', i ∈ idsOf s) ∧ totalOf s' = totalOf s) := by
  unfold execute_task
  cases hg : get_task s tid with
  | none =>
    constructor
    · intro out s' h
      cases h
      exact ⟨fun i hi => hi, rfl⟩
    · intro e s' h
      cases h
  | some task =>
    simp only [update_task_status_ok]
    obtain ⟨o, s2, hloop, _⟩ := executeStepsLoop_ok_files tid task.steps [] s
    obtain ⟨hact, hhist⟩ := executeStepsLoop_ids tid task.steps [] s o s2 hloop
    have hids2 : ∀ i ∈ idsOf s2, i ∈ idsOf s := by
      intro i hi
      unfold idsOf at hi ⊢
      rw [List.map_append] at hi ⊢
      rw [hact, hhist] at hi
      exact hi
    have htot2 : totalOf s2 = totalOf s := by
      unfold totalOf
      have h1 := congrArg List.length hact
      have h2 := congrArg List.length hhist
      simp only [List.length_map] at h1 h2
      omega
    rw [hloop]
    cases o with
    | some r =>
      constructor
      · intro out s' h
        cases h
        exact ⟨hids2, htot2⟩
      · intro e s' h
        cases h
    | none =>
      simp only []
      cases harch : archive_task s2 tid with
      | ok s4 =>
        obtain ⟨harchids, harchtot⟩ := (archive_task_state s2 tid).1 s4 harch
        constructor
        · intro out s' h
          cases h
          exact ⟨fun i hi => hids2 i (harchids i hi), harchtot.trans htot2⟩
        · intro e s' h
          cases h
      | error es =>
        rcases es with ⟨e2, sE⟩
        obtain ⟨harchids, harchtot⟩ := (archive_task_state s2 tid).2 e2 sE harch
        simp only [update_task_status_ok]
        constructor
        · intro out s' h
          cases h
          exact ⟨fun i hi => hids2 i (harchids i hi), harchtot.trans htot2⟩
        · intro e s' h
          cases h

theorem IdInv_of_sub (s s' : AgentState) (h : IdInv s)
    (hsub : ∀ i ∈ idsOf s', i ∈ idsOf s) (htot : totalOf s' = totalOf s) :
    IdInv s' := by
  intro i hi
  obtain ⟨k, h1, h2, h3⟩ := h i (hsub i hi)
  exact ⟨k, h1, by rw [htot]; exact h2, h3⟩

/-- The fresh id `task_<total+1>` keeps the id invariant through a create,
whether or not the save then raises. -/
theorem IdInv_create (s s' : AgentState) (h : IdInv s)
    (hids : s'.active_tasks.map Task.task_id =
      s.active_tasks.map Task.task_id ++ ["task_" ++ natToString (totalOf s + 1)])
    (hhist : s'.task_history = s.task_history) : IdInv s' := by
  have htot : totalOf s' = totalOf s + 1 := by
    have h1 := congrArg List.length hids
    simp only [List.length_map, List.length_append, List.length_cons,
      List.length_nil] at h1
    unfold totalOf
    rw [hhist]
    omega
  intro i hi
  unfold idsOf at hi
  rw [List.map_append, hids, hhist] at hi
  rcases List.mem_append.mp hi with h1 | h1
  · rcases List.mem_append.mp h1 with h2 | h2
    · obtain ⟨k, hk1, hk2, hk3⟩ := h i (by
        unfold idsOf
        rw [List.map_append]
        exact List.mem_append.mpr (Or.inl h2))
      exact ⟨k, hk1, by omega, hk3⟩
    · exact ⟨totalOf s + 1, by omega, by omega, List.mem_singleton.mp h2⟩
  · obtain ⟨k, hk1, hk2, hk3⟩ := h i (by
      unfold idsOf
      rw [List.map_append]
      exact List.mem_append.mpr (Or.inr h1))
    exact ⟨k, hk1, by omega, hk3⟩

theorem IdInv_runOp (s : AgentState) (op : Op) (h : IdInv s) : IdInv (runOp s op) := by
  cases op with
  | create d r p c =>
    show IdInv (match create_task p r d c s with
      | .ok (_, s') => s' | .error (_, s') => s')
    cases hc : create_task p r d c s with
    | ok pr =>
      rcases pr with ⟨t, s'⟩
      obtain ⟨hids, hhist, _⟩ := (create_task_state p r d c s).1 t s' hc
      exact IdInv_create s s' h hids hhist
    | error pr =>
      rcases pr with ⟨e, s'⟩
      obtain ⟨hids, hhist⟩ := (create_task_state p r d c s).2 e s' hc
      exact IdInv_create s s' h hids hhist
  | execute tid =>
    show IdInv (match execute_task s tid with
      | .ok (_, s') => s' | .error (_, s') => s')
    cases hc : execute_task s tid with
    | ok pr =>
      rcases pr with ⟨out, s'⟩
      obtain ⟨hsub, htot⟩ := (execute_task_state s tid).1 out s' hc
      exact IdInv_of_sub s s' h hsub htot
    | error pr =>
      rcases pr with ⟨e, s'⟩
      obtain ⟨hsub, htot⟩ := (execute_task_state s tid).2 e s' hc
      exact IdInv_of_sub s s' h hsub htot
  | archive tid =>
    show IdInv (match archive_task s tid with
      | .ok s' => s' | .error (_, s') => s')
    cases hc : archive_task s tid with
    | ok s' =>
      obtain ⟨hsub, htot⟩ := (archive_task_state s tid).1 s' hc
      exact IdInv_of_sub s s' h hsub htot
    | error pr =>
      rcases pr with ⟨e, s'⟩
      obtain ⟨hsub, htot⟩ := (archive_task_state s tid).2 e s' hc
      exact IdInv_of_sub s s' h hsub htot

theorem IdInv_runOps (ops : List Op) : IdInv (runOps initState ops) := by
  have hinit : IdInv initState := by
    intro i hi
    have : idsOf initState = [] := rfl
    rw [this] at hi
    cases hi
  have hstep : ∀ (l : List Op) (s : AgentState), IdInv s → IdInv (l.foldl runOp s) := by
    intro l
    induction l with
    | nil => intro s hs; exact hs
    | cons op rest ih =>
      intro s hs
      exact ih (runOp s op) (IdInv_runOp s op hs)
  exact hstep ops initState hinit

/-- **C9** (confirmed).  Along every single-threaded sequence of
orchestrator operations (create / execute / archive) starting from a fresh
service, a task returned by `create_task` carries an id (`task_<count+1>`)
that differs from the id of every task then in the active collection and
every task in the archive: every stored id is `task_<k>` with `k` at most
the current total count, counts never decrease, and the id encoding is
injective. -/
theorem create_task_id_unique :
    ∀ (ops : List Op) (p : String → Option (List Step)) (r d : String)
      (c : List (String × String)) (t : Task) (s' : AgentState),
      create_task p r d c (runOps initState ops) = .ok (t, s') →
      ∀ u ∈ (runOps initState ops).active_tasks ++
            (runOps initState ops).task_history,
        u.task_id ≠ t.task_id := by
  intro ops p r d c t s' hok u hu hcontra
  have hinv := IdInv_runOps ops
  obtain ⟨_, _, hid⟩ := (create_task_state p r d c (runOps initState ops)).1 t s' hok
  have humem : u.task_id ∈ idsOf (runOps initState ops) := by
    unfold idsOf
    exact List.mem_map.mpr ⟨u, hu, rfl⟩
  obtain ⟨k, hk1, hk2, hk3⟩ := hinv u.task_id humem
  rw [hcontra, hid] at hk3
  have := taskId_encode_injective _ _ hk3
  omega

/-- C9 witness: one prior create, then a second create. -/
def c9Ops : List Op := [Op.create "first task" "not json" (fun _ => none) []]

def c9T1 : Task :=
  { task_id := "task_1", description := "first task", status := "pending",
    steps := [], created_at := .dt 0, updated_at := .dt 1 }

def c9T2 : Task :=
  { task_id := "task_2", description := "second task", status := "pending",
    steps := [], created_at := .dt 2, updated_at := .dt 3 }

def c9S2 : AgentState :=
  { active_tasks := [c9T1, c9T2],
    task_history := [],
    activeFile := .valid
      [{ task_id := "task_1", description := "first task", status := "pending",
         steps := [], created_at := .s "", updated_at := .s "1" },
       { task_id := "task_2", description := "second task", status := "pending",
         steps := [], created_at := .s "2", updated_at := .s "3" }],
    activeBak := none, historyFile := .valid [], clock := 4, diskOk := true,
    modelCalls := 0 }

/-- Witness for C9: after one create, a second create returns `task_2`,
distinct from the stored `task_1`. -/
theorem create_task_id_unique_witness :
    create_task (fun _ => none) "also not json" "second task" []
        (runOps initState c9Ops) = .ok (c9T2, c9S2) ∧
    c9T1 ∈ (runOps initState c9Ops).active_tasks ++
      (runOps initState c9Ops).task_history ∧
    c9T1.task_id ≠ c9T2.task_id :=
  ⟨by rfl, by decide,
   create_task_id_unique c9Ops (fun _ => none) "also not json" "second task" []
     c9T2 c9S2 (by rfl) c9T1 (by decide)⟩

end AgentSvc
